import Mathlib

/-!
Verification development for the AprilTag detection node
(`src/AprilTagNode.cpp`): a shallow embedding of the pose estimator
(`getPose`), the per-frame pipeline (`onCamera`), the constructor's
startup checks, and the parameter-update callback (`onParameter`),
together with theorems settling the specification claims.

Machine doubles are modelled by real numbers; Lean's total division
(`x / 0 = 0`) stands in for IEEE division, and places where the source
divides by zero are exhibited explicitly.
-/

/-- A 3-vector of reals, modelling `Eigen::Vector3d`. -/
structure Vec3 where
  x : ℝ
  y : ℝ
  z : ℝ

/-- Euclidean dot product of 3-vectors. -/
def dot3 (a b : Vec3) : ℝ := a.x * b.x + a.y * b.y + a.z * b.z

/-- Euclidean norm, `Eigen`'s `.norm()`. -/
noncomputable def norm3 (v : Vec3) : ℝ := Real.sqrt (dot3 v v)

/-- Componentwise division of a vector by a scalar (`v / c` in Eigen). -/
noncomputable def vdiv3 (v : Vec3) (c : ℝ) : Vec3 := ⟨v.x / c, v.y / c, v.z / c⟩

/-- Componentwise multiplication of a vector by a scalar (`v * c` in Eigen). -/
def vmul3 (v : Vec3) (c : ℝ) : Vec3 := ⟨v.x * c, v.y * c, v.z * c⟩

/-- Negation of a vector (the source's `col *= -1`). -/
def neg3 (v : Vec3) : Vec3 := ⟨-v.x, -v.y, -v.z⟩

/-- Cross product of 3-vectors, `Eigen`'s `.cross`. -/
def cross3 (a b : Vec3) : Vec3 :=
  ⟨a.y * b.z - a.z * b.y, a.z * b.x - a.x * b.z, a.x * b.y - a.y * b.x⟩

/-- Normalization, `Eigen`'s `.normalized()`: the vector divided by its norm
(no guard against a zero norm, exactly as in Eigen and in the source). -/
noncomputable def normalize3 (v : Vec3) : Vec3 := vdiv3 v (norm3 v)

/-- The zero 3-vector. -/
def zero3 : Vec3 := ⟨0, 0, 0⟩

/-- A 3x3 real matrix with entry `mij` at row `i`, column `j`
(modelling the row-major `Mat3` of the source). -/
structure Mat3 where
  m00 : ℝ
  m01 : ℝ
  m02 : ℝ
  m10 : ℝ
  m11 : ℝ
  m12 : ℝ
  m20 : ℝ
  m21 : ℝ
  m22 : ℝ

/-- Matrix product of 3x3 matrices. -/
def matMul (A B : Mat3) : Mat3 :=
  ⟨A.m00 * B.m00 + A.m01 * B.m10 + A.m02 * B.m20,
   A.m00 * B.m01 + A.m01 * B.m11 + A.m02 * B.m21,
   A.m00 * B.m02 + A.m01 * B.m12 + A.m02 * B.m22,
   A.m10 * B.m00 + A.m11 * B.m10 + A.m12 * B.m20,
   A.m10 * B.m01 + A.m11 * B.m11 + A.m12 * B.m21,
   A.m10 * B.m02 + A.m11 * B.m12 + A.m12 * B.m22,
   A.m20 * B.m00 + A.m21 * B.m10 + A.m22 * B.m20,
   A.m20 * B.m01 + A.m21 * B.m11 + A.m22 * B.m21,
   A.m20 * B.m02 + A.m21 * B.m12 + A.m22 * B.m22⟩

/-- Column 0 of a matrix (`M.col(0)`). -/
def col0 (M : Mat3) : Vec3 := ⟨M.m00, M.m10, M.m20⟩

/-- Column 1 of a matrix (`M.col(1)`). -/
def col1 (M : Mat3) : Vec3 := ⟨M.m01, M.m11, M.m21⟩

/-- Column 2 of a matrix (`M.col(2)`, the source's `T.rightCols<1>()`). -/
def col2 (M : Mat3) : Vec3 := ⟨M.m02, M.m12, M.m22⟩

/-- The 3x3 identity matrix. -/
def mat3Id : Mat3 := ⟨1, 0, 0, 0, 1, 0, 0, 0, 1⟩

/-- The 3x3 zero matrix. -/
def mat3Zero : Mat3 := ⟨0, 0, 0, 0, 0, 0, 0, 0, 0⟩

/-- Determinant of the 3x3 matrix whose columns are `a`, `b`, `c`
(cofactor expansion along the first row). -/
def det3 (a b c : Vec3) : ℝ :=
  a.x * (b.y * c.z - b.z * c.y) - b.x * (a.y * c.z - a.z * c.y) +
    c.x * (a.y * b.z - a.z * b.y)

/-- Determinant of a 3x3 matrix (cofactor expansion, as Eigen's fixed-size
`determinant()` computes it). -/
def mat3Det (M : Mat3) : ℝ :=
  M.m00 * (M.m11 * M.m22 - M.m12 * M.m21) -
    M.m01 * (M.m10 * M.m22 - M.m12 * M.m20) +
    M.m02 * (M.m10 * M.m21 - M.m11 * M.m20)

/-- Inverse of a 3x3 matrix by the adjugate formula (Eigen's fixed-size
`.inverse()`); for a singular matrix the entries divide by zero. -/
noncomputable def mat3Inv (M : Mat3) : Mat3 :=
  let d := mat3Det M
  ⟨(M.m11 * M.m22 - M.m12 * M.m21) / d,
   -(M.m01 * M.m22 - M.m02 * M.m21) / d,
   (M.m01 * M.m12 - M.m02 * M.m11) / d,
   -(M.m10 * M.m22 - M.m12 * M.m20) / d,
   (M.m00 * M.m22 - M.m02 * M.m20) / d,
   -(M.m00 * M.m12 - M.m02 * M.m10) / d,
   (M.m10 * M.m21 - M.m11 * M.m20) / d,
   -(M.m00 * M.m21 - M.m01 * M.m20) / d,
   (M.m00 * M.m11 - M.m01 * M.m10) / d⟩

/-- The rigid transform written into `geometry_msgs::msg::Transform` by
`getPose`. The source converts the rotation matrix `R` to a unit quaternion
via `Eigen::Quaterniond(R)` before writing it out; the embedding keeps the
rotation as the matrix `R` itself (stored by columns), of which the
quaternion is an equivalent representation. -/
structure Transform3D where
  translation : Vec3
  rotCol0 : Vec3
  rotCol1 : Vec3
  rotCol2 : Vec3

/-- Shallow embedding of `getPose` (AprilTagNode.cpp, lines 59-94):
`T = Pinv * H`; rotation columns `normalize(T.col 0)`, `normalize(T.col 1)`,
and their cross product; if `z_up`, columns 1 and 2 are negated; the
translation is `T.col 2 / ((norm(T.col 0) + norm(T.col 0)) / 2) * (size / 2)`.
The repeated `norm(T.col 0)` in the translation's divisor reproduces source
line 83 verbatim (`(T.col(0).norm() + T.col(0).norm()) / 2.0`). -/
noncomputable def getPose (H Pinv : Mat3) (size : ℝ) (z_up : Bool) : Transform3D :=
  let T := matMul Pinv H
  let r0 := normalize3 (col0 T)
  let r1 := normalize3 (col1 T)
  let r2 := cross3 r0 r1
  let tt := vmul3 (vdiv3 (col2 T) ((norm3 (col0 T) + norm3 (col0 T)) / 2)) (size / 2)
  if z_up then ⟨tt, r0, neg3 r1, neg3 r2⟩ else ⟨tt, r0, r1, r2⟩

/-- Modelled from the spec: the translation formula as the specification
states it — the third column of `T` divided by the average of the norms of
`T`'s first two columns, then multiplied by half the edge size. Used to
compare the source's divisor (which uses the first column's norm twice)
against the specified one. -/
noncomputable def specScaledTranslation (H Pinv : Mat3) (size : ℝ) : Vec3 :=
  let T := matMul Pinv H
  vmul3 (vdiv3 (col2 T) ((norm3 (col0 T) + norm3 (col1 T)) / 2)) (size / 2)

/-! ## Vector algebra lemmas -/

lemma dot3_self_nonneg (v : Vec3) : 0 ≤ dot3 v v := by
  unfold dot3
  have := mul_self_nonneg v.x
  have := mul_self_nonneg v.y
  have := mul_self_nonneg v.z
  linarith

lemma norm3_mul_self (v : Vec3) : norm3 v * norm3 v = dot3 v v :=
  Real.mul_self_sqrt (dot3_self_nonneg v)

lemma eq_zero3_of_dot3_self (v : Vec3) (h : dot3 v v = 0) : v = zero3 := by
  obtain ⟨a, b, c⟩ := v
  simp only [dot3] at h
  have ha : a * a = 0 := by nlinarith [mul_self_nonneg a, mul_self_nonneg b, mul_self_nonneg c]
  have hb : b * b = 0 := by nlinarith [mul_self_nonneg a, mul_self_nonneg b, mul_self_nonneg c]
  have hc : c * c = 0 := by nlinarith [mul_self_nonneg a, mul_self_nonneg b, mul_self_nonneg c]
  simp only [zero3, Vec3.mk.injEq]
  exact ⟨mul_self_eq_zero.mp ha, mul_self_eq_zero.mp hb, mul_self_eq_zero.mp hc⟩

lemma norm3_ne_zero (v : Vec3) (h : v ≠ zero3) : norm3 v ≠ 0 := by
  intro h0
  apply h
  apply eq_zero3_of_dot3_self
  rw [← norm3_mul_self, h0, mul_zero]

lemma dot3_vdiv3 (u w : Vec3) (a b : ℝ) :
    dot3 (vdiv3 u a) (vdiv3 w b) = dot3 u w / (a * b) := by
  obtain ⟨ux, uy, uz⟩ := u
  obtain ⟨wx, wy, wz⟩ := w
  simp only [dot3, vdiv3]
  ring

lemma dot3_cross3_left (a b : Vec3) : dot3 (cross3 a b) a = 0 := by
  obtain ⟨ax, ay, az⟩ := a
  obtain ⟨bx, by', bz⟩ := b
  simp only [dot3, cross3]
  ring

lemma dot3_cross3_right (a b : Vec3) : dot3 (cross3 a b) b = 0 := by
  obtain ⟨ax, ay, az⟩ := a
  obtain ⟨bx, by', bz⟩ := b
  simp only [dot3, cross3]
  ring

lemma dot3_cross3_self (a b : Vec3) :
    dot3 (cross3 a b) (cross3 a b) = dot3 a a * dot3 b b - dot3 a b * dot3 a b := by
  obtain ⟨ax, ay, az⟩ := a
  obtain ⟨bx, by', bz⟩ := b
  simp only [dot3, cross3]
  ring

lemma det3_cross3 (a b : Vec3) :
    det3 a b (cross3 a b) = dot3 (cross3 a b) (cross3 a b) := by
  obtain ⟨ax, ay, az⟩ := a
  obtain ⟨bx, by', bz⟩ := b
  simp only [det3, dot3, cross3]
  ring

lemma dot3_neg3_right (u v : Vec3) : dot3 u (neg3 v) = -dot3 u v := by
  obtain ⟨ux, uy, uz⟩ := u
  obtain ⟨vx, vy, vz⟩ := v
  simp only [dot3, neg3]
  ring

lemma dot3_neg3_neg3 (u v : Vec3) : dot3 (neg3 u) (neg3 v) = dot3 u v := by
  obtain ⟨ux, uy, uz⟩ := u
  obtain ⟨vx, vy, vz⟩ := v
  simp only [dot3, neg3]
  ring

lemma norm3_neg3 (v : Vec3) : norm3 (neg3 v) = norm3 v := by
  unfold norm3
  rw [dot3_neg3_neg3]

lemma det3_neg3_23 (a b c : Vec3) : det3 a (neg3 b) (neg3 c) = det3 a b c := by
  obtain ⟨ax, ay, az⟩ := a
  obtain ⟨bx, by', bz⟩ := b
  obtain ⟨cx, cy, cz⟩ := c
  simp only [det3, neg3]
  ring

lemma dot3_normalize3_self (v : Vec3) (h : v ≠ zero3) :
    dot3 (normalize3 v) (normalize3 v) = 1 := by
  have hn := norm3_ne_zero v h
  rw [normalize3, dot3_vdiv3, ← norm3_mul_self]
  exact div_self (mul_ne_zero hn hn)

lemma norm3_normalize3 (v : Vec3) (h : v ≠ zero3) : norm3 (normalize3 v) = 1 := by
  rw [norm3, dot3_normalize3_self v h, Real.sqrt_one]

/-- Orthonormality of the three rotation columns built by `getPose`, before
the optional `z_up` negation, when the two input columns are nonzero and
mutually orthogonal. -/
lemma rot_cols_orthonormal (v0 v1 : Vec3) (h0 : v0 ≠ zero3) (h1 : v1 ≠ zero3)
    (horth : dot3 v0 v1 = 0) :
    norm3 (normalize3 v0) = 1 ∧ norm3 (normalize3 v1) = 1 ∧
      norm3 (cross3 (normalize3 v0) (normalize3 v1)) = 1 ∧
      dot3 (normalize3 v0) (normalize3 v1) = 0 ∧
      dot3 (normalize3 v0) (cross3 (normalize3 v0) (normalize3 v1)) = 0 ∧
      dot3 (normalize3 v1) (cross3 (normalize3 v0) (normalize3 v1)) = 0 ∧
      det3 (normalize3 v0) (normalize3 v1)
        (cross3 (normalize3 v0) (normalize3 v1)) = 1 := by
  have hd00 := dot3_normalize3_self v0 h0
  have hd11 := dot3_normalize3_self v1 h1
  have hd01 : dot3 (normalize3 v0) (normalize3 v1) = 0 := by
    rw [normalize3, normalize3, dot3_vdiv3, horth, zero_div]
  have hcc : dot3 (cross3 (normalize3 v0) (normalize3 v1))
      (cross3 (normalize3 v0) (normalize3 v1)) = 1 := by
    rw [dot3_cross3_self, hd00, hd11, hd01]
    ring
  refine ⟨norm3_normalize3 v0 h0, norm3_normalize3 v1 h1, ?_, hd01, ?_, ?_, ?_⟩
  · rw [norm3, hcc, Real.sqrt_one]
  · have := dot3_cross3_left (normalize3 v0) (normalize3 v1)
    obtain ⟨ax, ay, az⟩ := normalize3 v0
    obtain ⟨bx, by', bz⟩ := normalize3 v1
    simp only [dot3, cross3] at this ⊢
    linarith [this]
  · have := dot3_cross3_right (normalize3 v0) (normalize3 v1)
    obtain ⟨ax, ay, az⟩ := normalize3 v0
    obtain ⟨bx, by', bz⟩ := normalize3 v1
    simp only [dot3, cross3] at this ⊢
    linarith [this]
  · rw [det3_cross3, hcc]

/-! ## Concrete evaluation helpers -/

lemma matMul_id (M : Mat3) : matMul mat3Id M = M := by
  obtain ⟨a, b, c, d, e, f, g, h, i⟩ := M
  simp [matMul, mat3Id]

lemma norm3_eval (a b c r : ℝ) (hr : 0 ≤ r) (h : a * a + b * b + c * c = r * r) :
    norm3 ⟨a, b, c⟩ = r := by
  rw [norm3]
  show Real.sqrt (a * a + b * b + c * c) = r
  rw [h, Real.sqrt_mul_self hr]

/-- The homography used to refute the unconditional orthonormality claim:
its columns are `(1,0,0)`, `(3,4,0)` and `(0,0,1)`, and the first two are
not orthogonal. -/
def mat3C2 : Mat3 := ⟨1, 3, 0, 0, 4, 0, 0, 0, 1⟩

/-- The homography `diag(1, 2, 1)`, whose first two columns have different
norms (1 and 2). -/
def matDiag121 : Mat3 := ⟨1, 0, 0, 0, 2, 0, 0, 0, 1⟩

/-- C1: the translation computed by `getPose` divides the third column of
`T = Pinv * H` by the norm of `T`'s FIRST column (source line 83 writes
`(T.col(0).norm() + T.col(0).norm()) / 2.0`), not by the average of the
norms of the first two columns as the specification states. At
`H = diag(1,2,1)`, `Pinv = I`, `size = 2` the code yields `(0,0,1)` whereas
the specified formula yields `(0,0,2/3)`. -/
theorem getPose_translation_divides_by_first_column_norm :
    (getPose matDiag121 mat3Id 2 false).translation = ⟨0, 0, 1⟩ ∧
    specScaledTranslation matDiag121 mat3Id 2 = ⟨0, 0, 2 / 3⟩ ∧
    (⟨0, 0, 1⟩ : Vec3) ≠ ⟨0, 0, 2 / 3⟩ := by
  have hn0 : norm3 (⟨1, 0, 0⟩ : Vec3) = 1 := norm3_eval 1 0 0 1 (by norm_num) (by norm_num)
  have hn1 : norm3 (⟨0, 2, 0⟩ : Vec3) = 2 := norm3_eval 0 2 0 2 (by norm_num) (by norm_num)
  refine ⟨?_, ?_, ?_⟩
  · rw [show (getPose matDiag121 mat3Id 2 false).translation =
        vmul3 (vdiv3 (col2 (matMul mat3Id matDiag121))
          ((norm3 (col0 (matMul mat3Id matDiag121)) +
            norm3 (col0 (matMul mat3Id matDiag121))) / 2)) (2 / 2) from rfl]
    rw [matMul_id]
    rw [show col0 matDiag121 = (⟨1, 0, 0⟩ : Vec3) from rfl,
      show col2 matDiag121 = (⟨0, 0, 1⟩ : Vec3) from rfl, hn0]
    simp only [vdiv3, vmul3, Vec3.mk.injEq]
    norm_num
  · rw [show specScaledTranslation matDiag121 mat3Id 2 =
        vmul3 (vdiv3 (col2 (matMul mat3Id matDiag121))
          ((norm3 (col0 (matMul mat3Id matDiag121)) +
            norm3 (col1 (matMul mat3Id matDiag121))) / 2)) (2 / 2) from rfl]
    rw [matMul_id]
    rw [show col0 matDiag121 = (⟨1, 0, 0⟩ : Vec3) from rfl,
      show col1 matDiag121 = (⟨0, 2, 0⟩ : Vec3) from rfl,
      show col2 matDiag121 = (⟨0, 0, 1⟩ : Vec3) from rfl, hn0, hn1]
    simp only [vdiv3, vmul3, Vec3.mk.injEq]
    norm_num
  · simp only [ne_eq, Vec3.mk.injEq, not_and]
    intro _ _
    norm_num

/-- C2 counterexample: for the homography with columns `(1,0,0)`, `(3,4,0)`,
`(0,0,1)` and `Pinv = I`, the first two rotation columns produced by
`getPose` have dot product `3/5`, which exceeds the `1e-6` floating
tolerance: the output is not an orthonormal rotation for every valid
homography. -/
theorem getPose_rotation_not_orthogonal :
    dot3 ((getPose mat3C2 mat3Id 1 false).rotCol0)
      ((getPose mat3C2 mat3Id 1 false).rotCol1) = 3 / 5 ∧
    ¬ (|(3 : ℝ) / 5| ≤ 1 / 1000000) := by
  constructor
  · rw [show (getPose mat3C2 mat3Id 1 false).rotCol0 =
        normalize3 (col0 (matMul mat3Id mat3C2)) from rfl,
      show (getPose mat3C2 mat3Id 1 false).rotCol1 =
        normalize3 (col1 (matMul mat3Id mat3C2)) from rfl]
    rw [matMul_id]
    rw [show col0 mat3C2 = (⟨1, 0, 0⟩ : Vec3) from rfl,
      show col1 mat3C2 = (⟨3, 4, 0⟩ : Vec3) from rfl]
    rw [normalize3, normalize3,
      norm3_eval 1 0 0 1 (by norm_num) (by norm_num),
      norm3_eval 3 4 0 5 (by norm_num) (by norm_num), dot3_vdiv3]
    show ((1 : ℝ) * 3 + 0 * 4 + 0 * 0) / (1 * 5) = 3 / 5
    norm_num
  · rw [abs_of_nonneg (by norm_num : (0 : ℝ) ≤ 3 / 5)]
    norm_num

/-- C2 (amended): whenever the first two columns of `T = Pinv * H` are
nonzero and mutually orthogonal, the rotation matrix produced by `getPose`
is a proper orthonormal rotation — all three columns unit length, mutually
orthogonal, determinant `+1` — for either setting of `z_up`. -/
theorem getPose_rotation_orthonormal (H Pinv : Mat3) (size : ℝ) (z_up : Bool)
    (h0 : col0 (matMul Pinv H) ≠ zero3) (h1 : col1 (matMul Pinv H) ≠ zero3)
    (horth : dot3 (col0 (matMul Pinv H)) (col1 (matMul Pinv H)) = 0) :
    norm3 ((getPose H Pinv size z_up).rotCol0) = 1 ∧
    norm3 ((getPose H Pinv size z_up).rotCol1) = 1 ∧
    norm3 ((getPose H Pinv size z_up).rotCol2) = 1 ∧
    dot3 ((getPose H Pinv size z_up).rotCol0) ((getPose H Pinv size z_up).rotCol1) = 0 ∧
    dot3 ((getPose H Pinv size z_up).rotCol0) ((getPose H Pinv size z_up).rotCol2) = 0 ∧
    dot3 ((getPose H Pinv size z_up).rotCol1) ((getPose H Pinv size z_up).rotCol2) = 0 ∧
    det3 ((getPose H Pinv size z_up).rotCol0) ((getPose H Pinv size z_up).rotCol1)
      ((getPose H Pinv size z_up).rotCol2) = 1 := by
  obtain ⟨c1, c2, c3, c4, c5, c6, c7⟩ :=
    rot_cols_orthonormal (col0 (matMul Pinv H)) (col1 (matMul Pinv H)) h0 h1 horth
  cases z_up with
  | false => exact ⟨c1, c2, c3, c4, c5, c6, c7⟩
  | true =>
    refine ⟨c1, ?_, ?_, ?_, ?_, ?_, ?_⟩
    · show norm3 (neg3 (normalize3 (col1 (matMul Pinv H)))) = 1
      rw [norm3_neg3]
      exact c2
    · show norm3 (neg3 (cross3 (normalize3 (col0 (matMul Pinv H)))
        (normalize3 (col1 (matMul Pinv H))))) = 1
      rw [norm3_neg3]
      exact c3
    · show dot3 (normalize3 (col0 (matMul Pinv H)))
        (neg3 (normalize3 (col1 (matMul Pinv H)))) = 0
      rw [dot3_neg3_right, c4, neg_zero]
    · show dot3 (normalize3 (col0 (matMul Pinv H)))
        (neg3 (cross3 (normalize3 (col0 (matMul Pinv H)))
          (normalize3 (col1 (matMul Pinv H))))) = 0
      rw [dot3_neg3_right, c5, neg_zero]
    · show dot3 (neg3 (normalize3 (col1 (matMul Pinv H))))
        (neg3 (cross3 (normalize3 (col0 (matMul Pinv H)))
          (normalize3 (col1 (matMul Pinv H))))) = 0
      rw [dot3_neg3_neg3]
      exact c6
    · show det3 (normalize3 (col0 (matMul Pinv H)))
        (neg3 (normalize3 (col1 (matMul Pinv H))))
        (neg3 (cross3 (normalize3 (col0 (matMul Pinv H)))
          (normalize3 (col1 (matMul Pinv H))))) = 1
      rw [det3_neg3_23]
      exact c7

/-- Witness for the amended C2 theorem at `H = Pinv = I`, `z_up = true`:
the identity homography has nonzero, orthogonal first two columns, and the
theorem's conclusion is obtained by applying it there. -/
theorem getPose_rotation_orthonormal_witness :
    (col0 (matMul mat3Id mat3Id) ≠ zero3) ∧
    (col1 (matMul mat3Id mat3Id) ≠ zero3) ∧
    dot3 (col0 (matMul mat3Id mat3Id)) (col1 (matMul mat3Id mat3Id)) = 0 ∧
    (norm3 ((getPose mat3Id mat3Id 1 true).rotCol0) = 1 ∧
     norm3 ((getPose mat3Id mat3Id 1 true).rotCol1) = 1 ∧
     norm3 ((getPose mat3Id mat3Id 1 true).rotCol2) = 1 ∧
     dot3 ((getPose mat3Id mat3Id 1 true).rotCol0)
       ((getPose mat3Id mat3Id 1 true).rotCol1) = 0 ∧
     dot3 ((getPose mat3Id mat3Id 1 true).rotCol0)
       ((getPose mat3Id mat3Id 1 true).rotCol2) = 0 ∧
     dot3 ((getPose mat3Id mat3Id 1 true).rotCol1)
       ((getPose mat3Id mat3Id 1 true).rotCol2) = 0 ∧
     det3 ((getPose mat3Id mat3Id 1 true).rotCol0)
       ((getPose mat3Id mat3Id 1 true).rotCol1)
       ((getPose mat3Id mat3Id 1 true).rotCol2) = 1) := by
  have hA : col0 (matMul mat3Id mat3Id) ≠ zero3 := by
    rw [matMul_id]
    norm_num [col0, mat3Id, zero3, Vec3.mk.injEq]
  have hB : col1 (matMul mat3Id mat3Id) ≠ zero3 := by
    rw [matMul_id]
    norm_num [col1, mat3Id, zero3, Vec3.mk.injEq]
  have hC : dot3 (col0 (matMul mat3Id mat3Id)) (col1 (matMul mat3Id mat3Id)) = 0 := by
    rw [matMul_id]
    norm_num [col0, col1, mat3Id, dot3]
  exact ⟨hA, hB, hC, getPose_rotation_orthonormal mat3Id mat3Id 1 true hA hB hC⟩

/-- C3: at the all-zero homography with `Pinv = I`, the first column of
`T` has norm zero, yet `getPose` still divides by it: its rotation column 0
is the zero vector divided componentwise by zero. In IEEE double arithmetic
each component is `0.0 / 0.0 = NaN`, silently written into the output
transform; the embedding's total division returns `0`, exhibited here as a
zero-norm (hence certainly not unit) rotation column. The source has no
failure path: `getPose` unconditionally fills the transform. -/
theorem getPose_zero_homography_divides_by_zero :
    norm3 (col0 (matMul mat3Id mat3Zero)) = 0 ∧
    (getPose mat3Zero mat3Id 1 false).rotCol0 = zero3 ∧
    norm3 ((getPose mat3Zero mat3Id 1 false).rotCol0) = 0 := by
  have hnz : norm3 zero3 = 0 := by
    rw [norm3]
    show Real.sqrt ((0 : ℝ) * 0 + 0 * 0 + 0 * 0) = 0
    norm_num
  have hc0 : col0 (matMul mat3Id mat3Zero) = zero3 := by
    rw [matMul_id]
    rfl
  have hdiv : vdiv3 zero3 (norm3 zero3) = zero3 := by
    rw [hnz]
    simp [vdiv3, zero3]
  have hrot : (getPose mat3Zero mat3Id 1 false).rotCol0 = zero3 := by
    rw [show (getPose mat3Zero mat3Id 1 false).rotCol0 =
        normalize3 (col0 (matMul mat3Id mat3Zero)) from rfl, hc0, normalize3, hdiv]
  exact ⟨by rw [hc0, hnz], hrot, by rw [hrot, hnz]⟩

/-- C8: for every homography, `Pinv` and size, toggling `z_up` leaves the
translation unchanged and negates rotation columns 1 and 2 while keeping
column 0 — exactly a 180-degree rotation about the local x-axis. -/
theorem getPose_z_up_toggle (H Pinv : Mat3) (size : ℝ) :
    (getPose H Pinv size true).translation = (getPose H Pinv size false).translation ∧
    (getPose H Pinv size true).rotCol0 = (getPose H Pinv size false).rotCol0 ∧
    (getPose H Pinv size true).rotCol1 = neg3 ((getPose H Pinv size false).rotCol1) ∧
    (getPose H Pinv size true).rotCol2 = neg3 ((getPose H Pinv size false).rotCol2) :=
  ⟨rfl, rfl, rfl, rfl⟩

/-! ## Node state, constructor, and frame pipeline -/

/-- The detector tuning fields of `apriltag_detector_t` that the node
declares and updates (`td->nthreads`, `quad_decimate`, `quad_sigma`,
`refine_edges`, `decode_sharpening`, `debug`); floats are modelled by
rationals. -/
structure DetCfg where
  nthreads : Int
  quad_decimate : ℚ
  quad_sigma : ℚ
  refine_edges : Bool
  decode_sharpening : ℚ
  debug : Bool
deriving DecidableEq

/-- The mutable member state of `AprilTagNode`: detector tuning plus
`tag_edge_size`, `max_hamming`, `profile`, `tag_frames`, `tag_sizes`,
`z_up`, `enabled`. The two per-ID maps (`std::unordered_map`) are
association lists keyed by tag ID. -/
structure NodeState where
  det : DetCfg
  tag_edge_size : ℝ
  max_hamming : Int
  profile : Bool
  tag_frames : List (Int × String)
  tag_sizes : List (Int × ℝ)
  z_up : Bool
  enabled : Bool

/-- Map lookup (`m.count(k) ? some (m.at k) : none`). -/
def lookupTag {α : Type} (m : List (Int × α)) (k : Int) : Option α :=
  (m.find? (fun e => e.1 == k)).map (fun e => e.2)

/-- Map membership (`m.count(k)`). -/
def hasKey {α : Type} (m : List (Int × α)) (k : Int) : Bool :=
  (m.find? (fun e => e.1 == k)).isSome

/-- Map assignment `m[k] = v`: overwrite the entry for `k` if present,
else append. -/
def mapInsert {α : Type} (m : List (Int × α)) (k : Int) (v : α) : List (Int × α) :=
  if m.any (fun e => e.1 == k) then m.map (fun e => if e.1 == k then (k, v) else e)
  else m ++ [(k, v)]

/-- The constructor's fill loop `for i: map[ids[i]] = vals[i]`, run under
the guarantee that both lists have equal length (or `vals` is empty, in
which case the loop body never runs). -/
def buildMap {α : Type} (ids : List Int) (vals : List α) : List (Int × α) :=
  (ids.zip vals).foldl (fun m kv => mapInsert m kv.1 kv.2) []

/-- Modelled from the spec: `tag_functions.hpp` (the `tag_create` registry)
is not among the sources; the spec describes a fixed registry of marker
families keyed by family-name strings, naming `"36h11"` as an example.
These are the standard AprilTag family names. -/
def tagFamilies : List String :=
  ["16h5", "25h9", "36h10", "36h11", "Circle21h7", "Circle49h12",
   "Custom48h12", "Standard41h12", "Standard52h13"]

/-- Default detector tuning produced by `apriltag_detector_create()`
(external library defaults; the concrete values are immaterial to the
claims). -/
def detDefault : DetCfg := ⟨1, 2, 0, true, 1 / 4, false⟩

/-- Shallow embedding of the `AprilTagNode` constructor's validation logic
(AprilTagNode.cpp, lines 132-200): if the frames list is non-empty its
length must match the ID list, else a `runtime_error` is thrown; likewise
for the sizes list; finally an unsupported family name is an error. On
success the per-ID maps are filled by zipping and the scalar fields take
the declared parameter defaults (`max_hamming = 0`, `profile = false`,
`z_up = true`, `enabled = false`). A thrown exception destroys the
half-built node, so the error case produces no `NodeState` at all. -/
def constructNode (family : String) (edge : ℝ) (ids : List Int)
    (frames : List String) (sizes : List ℝ) (det0 : DetCfg) :
    Except String NodeState :=
  if frames.isEmpty = false ∧ ids.length ≠ frames.length then
    Except.error ("Number of tag ids (" ++ toString ids.length ++ ") and frames ("
      ++ toString frames.length ++ ") mismatch!")
  else if sizes.isEmpty = false ∧ ids.length ≠ sizes.length then
    Except.error ("Number of tag ids (" ++ toString ids.length ++ ") and sizes ("
      ++ toString sizes.length ++ ") mismatch!")
  else if family ∈ tagFamilies then
    Except.ok
      { det := det0, tag_edge_size := edge, max_hamming := 0, profile := false,
        tag_frames := buildMap ids frames, tag_sizes := buildMap ids sizes,
        z_up := true, enabled := false }
  else Except.error ("Unsupported tag family: " ++ family)

/-- A message header (timestamp and frame name), copied verbatim to every
output of a frame. -/
structure Header where
  frame_id : String
  stamp : Int
deriving DecidableEq

/-- A 2D image point. -/
structure Pt2 where
  x : ℝ
  y : ℝ

/-- A raw detection as returned by `apriltag_detector_detect`
(`apriltag_detection_t`): family name, ID, hamming count, decision margin,
centroid, the 8 corner coordinates, and the 3x3 homography. -/
structure RawDetection where
  family : String
  id : Int
  hamming : Int
  decision_margin : ℝ
  centre : Pt2
  corners : List ℝ
  H : Mat3

/-- One `AprilTagDetection` message: every field is copied verbatim from
the raw detection (AprilTagNode.cpp, lines 252-260). -/
structure DetectionMsg where
  family : String
  id : Int
  hamming : Int
  decision_margin : ℝ
  centre : Pt2
  corners : List ℝ
  homography : Mat3

/-- Build the detection record for one surviving detection. -/
def mkDetectionMsg (d : RawDetection) : DetectionMsg :=
  ⟨d.family, d.id, d.hamming, d.decision_margin, d.centre, d.corners, d.H⟩

/-- One stamped transform (`geometry_msgs::msg::TransformStamped`). -/
structure TFMsg where
  header : Header
  child_frame_id : String
  transform : Transform3D

/-- Destination frame name: the configured per-ID name if present, else
the synthesized `<family>:<id>` (AprilTagNode.cpp, line 267). -/
def childFrameId (s : NodeState) (d : RawDetection) : String :=
  match lookupTag s.tag_frames d.id with
  | some f => f
  | none => d.family ++ ":" ++ toString d.id

/-- Edge size used for the pose: the per-ID size if present, else the
default `tag_edge_size` (AprilTagNode.cpp, line 268). -/
def tagSize (s : NodeState) (d : RawDetection) : ℝ :=
  match lookupTag s.tag_sizes d.id with
  | some sz => sz
  | none => s.tag_edge_size

/-- The stamped transform for one surviving detection. -/
noncomputable def mkTF (s : NodeState) (Pinv : Mat3) (h : Header)
    (d : RawDetection) : TFMsg :=
  ⟨h, childFrameId s d, getPose d.H Pinv (tagSize s d) s.z_up⟩

/-- Whether a raw detection survives both filters (AprilTagNode.cpp,
lines 240-249): the first `continue` skips it when `tag_frames` is
non-empty and does not contain its ID, the second when its hamming count
exceeds `max_hamming`. -/
def survives (s : NodeState) (d : RawDetection) : Bool :=
  (s.tag_frames.isEmpty || hasKey s.tag_frames d.id) &&
    decide (d.hamming ≤ s.max_hamming)

/-- The detection loop (AprilTagNode.cpp, lines 234-271): each surviving
detection appends one detection record and one stamped transform, in the
detector's output order. -/
noncomputable def processDets (s : NodeState) (Pinv : Mat3) (h : Header) :
    List RawDetection → List DetectionMsg × List TFMsg
  | [] => ([], [])
  | d :: ds =>
    let rest := processDets s Pinv h ds
    if survives s d then (mkDetectionMsg d :: rest.1, mkTF s Pinv h d :: rest.2)
    else rest

/-- The observable outcome of one `onCamera` invocation: either the
disabled early return (nothing detected, published, sent or profiled), or
a processed frame carrying the published detection array (header + records),
the broadcast transforms, and whether the profiling report was printed. -/
inductive CameraResult where
  | disabled : CameraResult
  | processed : Header → List DetectionMsg → List TFMsg → Bool → CameraResult

/-- Shallow embedding of `AprilTagNode::onCamera` (AprilTagNode.cpp,
lines 208-277). The detector service is external: `dets` is the list of
raw detections it would return for this frame, consumed only when the node
is enabled. `P` is the leading 3x3 block of the calibration's projection
matrix, inverted as in line 215. -/
noncomputable def onCamera (s : NodeState) (h : Header) (P : Mat3)
    (dets : List RawDetection) : CameraResult :=
  if !s.enabled then CameraResult.disabled
  else
    let Pinv := mat3Inv P
    let r := processDets s Pinv h dets
    CameraResult.processed h r.1 r.2 s.profile

/-- The detection records published for a frame (empty when disabled:
nothing is published at all). -/
def emittedDetections : CameraResult → List DetectionMsg
  | CameraResult.disabled => []
  | CameraResult.processed _ ms _ _ => ms

/-- The transforms broadcast for a frame. -/
def emittedTransforms : CameraResult → List TFMsg
  | CameraResult.disabled => []
  | CameraResult.processed _ _ ts _ => ts

/-- Whether `apriltag_detector_detect` was invoked for the frame. -/
def detectorInvoked : CameraResult → Bool
  | CameraResult.disabled => false
  | CameraResult.processed _ _ _ _ => true

/-- Whether the profiling report side effect ran for the frame. -/
def profiled : CameraResult → Bool
  | CameraResult.disabled => false
  | CameraResult.processed _ _ _ b => b

lemma processDets_eq_filter (s : NodeState) (Pinv : Mat3) (h : Header)
    (dets : List RawDetection) :
    processDets s Pinv h dets =
      ((dets.filter (fun d => survives s d)).map mkDetectionMsg,
       (dets.filter (fun d => survives s d)).map (mkTF s Pinv h)) := by
  induction dets with
  | nil => rfl
  | cons d ds ih =>
    by_cases hs : survives s d
    · simp [processDets, hs, ih, List.filter_cons]
    · simp [processDets, hs, ih, List.filter_cons]

lemma isEmpty_false_of_ne_nil {α : Type} (l : List α) (h : l ≠ []) :
    l.isEmpty = false := by
  cases l with
  | nil => exact absurd rfl h
  | cons a t => rfl

lemma eq_nil_of_isEmpty {α : Type} (l : List α) (h : l.isEmpty = true) :
    l = [] := by
  cases l with
  | nil => rfl
  | cons a t => simp [List.isEmpty] at h

/-- C4 (amended): if the frames list is non-empty and its length differs
from the ID list's, or the sizes list is non-empty and its length differs
from the ID list's, construction throws and no node is produced. -/
theorem constructNode_mismatch_fails (family : String) (edge : ℝ)
    (ids : List Int) (frames : List String) (sizes : List ℝ) (det0 : DetCfg)
    (h : (frames ≠ [] ∧ ids.length ≠ frames.length) ∨
      (sizes ≠ [] ∧ ids.length ≠ sizes.length)) :
    ∃ e, constructNode family edge ids frames sizes det0 = Except.error e := by
  unfold constructNode
  split_ifs with h1 h2 h3
  · exact ⟨_, rfl⟩
  · exact ⟨_, rfl⟩
  · rcases h with ⟨hne, hlen⟩ | ⟨hne, hlen⟩
    · exact absurd ⟨isEmpty_false_of_ne_nil _ hne, hlen⟩ h1
    · exact absurd ⟨isEmpty_false_of_ne_nil _ hne, hlen⟩ h2
  · exact ⟨_, rfl⟩

/-- Witness for C4's amended theorem: one ID list of length 2 against a
frames list of length 1 makes construction fail. -/
theorem constructNode_mismatch_fails_witness :
    ((["frame_a"] : List String) ≠ [] ∧
      ([1, 2] : List Int).length ≠ (["frame_a"] : List String).length) ∧
    ∃ e, constructNode "36h11" 1 [1, 2] ["frame_a"] [] detDefault =
      Except.error e := by
  have h : (["frame_a"] : List String) ≠ [] ∧
      ([1, 2] : List Int).length ≠ (["frame_a"] : List String).length :=
    ⟨by decide, by decide⟩
  exact ⟨h, constructNode_mismatch_fails "36h11" 1 [1, 2] ["frame_a"] [] detDefault
    (Or.inl h)⟩

/-- C4 counterexample: with a non-empty ID list and an EMPTY frames list
(and empty sizes list) the lengths differ, yet construction succeeds — the
source only checks lengths when the frames (resp. sizes) list is
non-empty, so the claim as stated is false. -/
theorem constructNode_length_mismatch_accepted :
    ([1] : List Int).length ≠ ([] : List String).length ∧
    ∃ n, constructNode "36h11" 1 [1] [] [] detDefault = Except.ok n := by
  exact ⟨by decide, ⟨_, rfl⟩⟩

/-- A fixed header used by the concrete frames below. -/
def hdr0 : Header := ⟨"camera", 0⟩

/-- A concrete node state: disabled, no per-ID maps. -/
def nodeDisabled : NodeState := ⟨detDefault, 1, 0, false, [], [], true, false⟩

/-- A concrete enabled node state tracking tag ID 7 with `max_hamming = 1`. -/
def cfgC6 : NodeState := ⟨detDefault, 1, 1, false, [(7, "tag7")], [], true, true⟩

/-- A raw detection of tag 7 with hamming count 1 (on the filter boundary). -/
def dC6 : RawDetection := ⟨"36h11", 7, 1, 0, ⟨0, 0⟩, [], mat3Id⟩

/-- A raw detection of untracked tag 9 with hamming count 5 (filtered out). -/
def dBad : RawDetection := ⟨"36h11", 9, 5, 0, ⟨0, 0⟩, [], mat3Id⟩

/-- C5: when `enabled` is false, `onCamera` returns at once: no detection
record and no transform is produced, the detector service is never
invoked, and no profiling side effect runs. -/
theorem onCamera_disabled_no_effects (s : NodeState) (h : Header) (P : Mat3)
    (dets : List RawDetection) (hd : s.enabled = false) :
    onCamera s h P dets = CameraResult.disabled ∧
    emittedDetections (onCamera s h P dets) = [] ∧
    emittedTransforms (onCamera s h P dets) = [] ∧
    detectorInvoked (onCamera s h P dets) = false ∧
    profiled (onCamera s h P dets) = false := by
  have hc : onCamera s h P dets = CameraResult.disabled := by
    unfold onCamera
    rw [hd]
    rfl
  exact ⟨hc, by rw [hc]; rfl, by rw [hc]; rfl, by rw [hc]; rfl, by rw [hc]; rfl⟩

/-- Witness for C5 at a concrete disabled node. -/
theorem onCamera_disabled_witness :
    nodeDisabled.enabled = false ∧
    (onCamera nodeDisabled hdr0 mat3Id [] = CameraResult.disabled ∧
     emittedDetections (onCamera nodeDisabled hdr0 mat3Id []) = [] ∧
     emittedTransforms (onCamera nodeDisabled hdr0 mat3Id []) = [] ∧
     detectorInvoked (onCamera nodeDisabled hdr0 mat3Id []) = false ∧
     profiled (onCamera nodeDisabled hdr0 mat3Id []) = false) :=
  ⟨rfl, onCamera_disabled_no_effects nodeDisabled hdr0 mat3Id [] rfl⟩

lemma onCamera_enabled (s : NodeState) (h : Header) (P : Mat3)
    (dets : List RawDetection) (he : s.enabled = true) :
    onCamera s h P dets = CameraResult.processed h
      ((dets.filter (fun d => survives s d)).map mkDetectionMsg)
      ((dets.filter (fun d => survives s d)).map (mkTF s (mat3Inv P) h))
      s.profile := by
  unfold onCamera
  rw [he]
  simp [processDets_eq_filter]

/-- C6: every emitted detection record carries an ID present in the
(non-empty) allow-list and a hamming count of at most `max_hamming`; and
conversely a detection passing both filters — hamming exactly at the
threshold included — is emitted. -/
theorem onCamera_filter_correct (s : NodeState) (h : Header) (P : Mat3)
    (dets : List RawDetection) :
    (∀ m ∈ emittedDetections (onCamera s h P dets),
      (s.tag_frames ≠ [] → hasKey s.tag_frames m.id = true) ∧
        m.hamming ≤ s.max_hamming) ∧
    (∀ d ∈ dets, s.enabled = true →
      (s.tag_frames.isEmpty || hasKey s.tag_frames d.id) = true →
      d.hamming ≤ s.max_hamming →
      mkDetectionMsg d ∈ emittedDetections (onCamera s h P dets)) := by
  by_cases he : s.enabled = true
  · rw [onCamera_enabled s h P dets he]
    constructor
    · intro m hm
      simp only [emittedDetections] at hm
      rw [List.mem_map] at hm
      obtain ⟨d, hdf, rfl⟩ := hm
      rw [List.mem_filter] at hdf
      obtain ⟨hdd, hs⟩ := hdf
      simp only [survives, Bool.and_eq_true, Bool.or_eq_true,
        decide_eq_true_eq] at hs
      obtain ⟨hfil, hham⟩ := hs
      refine ⟨?_, hham⟩
      intro hne
      rcases hfil with hemp | hkey
      · exact absurd (eq_nil_of_isEmpty _ hemp) hne
      · exact hkey
    · intro d hdd he' hfil hham
      simp only [emittedDetections]
      rw [List.mem_map]
      exact ⟨d, List.mem_filter.mpr ⟨hdd, by simp [survives, hfil, hham]⟩, rfl⟩
  · have hd : s.enabled = false := by
      cases hb : s.enabled
      · rfl
      · exact absurd hb he
    obtain ⟨hc, _, _, _, _⟩ := onCamera_disabled_no_effects s h P dets hd
    constructor
    · intro m hm
      rw [hc] at hm
      simp [emittedDetections] at hm
    · intro d hdd he' hfil hham
      exact absurd he' he

/-- Witness for C6: tag 7 with hamming exactly at the threshold is kept,
with its ID in the allow-list. -/
theorem onCamera_filter_correct_witness :
    ((cfgC6.tag_frames.isEmpty || hasKey cfgC6.tag_frames dC6.id) = true) ∧
    dC6.hamming ≤ cfgC6.max_hamming ∧
    mkDetectionMsg dC6 ∈ emittedDetections (onCamera cfgC6 hdr0 mat3Id [dC6]) := by
  have h1 : (cfgC6.tag_frames.isEmpty || hasKey cfgC6.tag_frames dC6.id) = true := by
    decide
  have h2 : dC6.hamming ≤ cfgC6.max_hamming := by decide
  refine ⟨h1, h2, ?_⟩
  exact (onCamera_filter_correct cfgC6 hdr0 mat3Id [dC6]).2 dC6
    (List.mem_singleton.mpr rfl) rfl h1 h2

/-- C7: for an enabled node, the emitted detection records and broadcast
transforms have equal counts, both equal to the number of raw detections
surviving both filters, and both batches list the survivors in the
detector's output order. -/
theorem onCamera_batch_invariant (s : NodeState) (h : Header) (P : Mat3)
    (dets : List RawDetection) (he : s.enabled = true) :
    (emittedDetections (onCamera s h P dets)).length =
      (emittedTransforms (onCamera s h P dets)).length ∧
    (emittedDetections (onCamera s h P dets)).length =
      (dets.filter (fun d => survives s d)).length ∧
    emittedDetections (onCamera s h P dets) =
      (dets.filter (fun d => survives s d)).map mkDetectionMsg ∧
    emittedTransforms (onCamera s h P dets) =
      (dets.filter (fun d => survives s d)).map (mkTF s (mat3Inv P) h) := by
  rw [onCamera_enabled s h P dets he]
  simp [emittedDetections, emittedTransforms]

/-- Witness for C7 on a concrete frame with one surviving and one filtered
detection. -/
theorem onCamera_batch_invariant_witness :
    cfgC6.enabled = true ∧
    ((emittedDetections (onCamera cfgC6 hdr0 mat3Id [dC6, dBad])).length =
      (emittedTransforms (onCamera cfgC6 hdr0 mat3Id [dC6, dBad])).length ∧
    (emittedDetections (onCamera cfgC6 hdr0 mat3Id [dC6, dBad])).length =
      (([dC6, dBad] : List RawDetection).filter (fun d => survives cfgC6 d)).length ∧
    emittedDetections (onCamera cfgC6 hdr0 mat3Id [dC6, dBad]) =
      (([dC6, dBad] : List RawDetection).filter
        (fun d => survives cfgC6 d)).map mkDetectionMsg ∧
    emittedTransforms (onCamera cfgC6 hdr0 mat3Id [dC6, dBad]) =
      (([dC6, dBad] : List RawDetection).filter
        (fun d => survives cfgC6 d)).map (mkTF cfgC6 (mat3Inv mat3Id) hdr0)) :=
  ⟨rfl, onCamera_batch_invariant cfgC6 hdr0 mat3Id [dC6, dBad] rfl⟩

/-! ## Parameter updates (`onParameter`) -/

/-- The value carried by one `rclcpp::Parameter`, exposed through
`get_value<T>` at the integer, floating (rational model) and boolean types
the callback reads. -/
structure PVal where
  asInt : Int
  asRat : ℚ
  asBool : Bool
deriving DecidableEq

/-- One named-value update delivered to the parameter callback. -/
structure Param where
  name : String
  value : PVal
deriving DecidableEq

/-- One iteration of the callback's `IF(name, var)` chain
(AprilTagNode.cpp, lines 286-300): the parameter's name is matched against
the recognized keys in source order; the first match assigns the
corresponding field and the rest of the chain is skipped; an unmatched
name changes nothing. -/
def applyParam (s : NodeState) (p : Param) : NodeState :=
  if p.name = "detector.threads" then
    { s with det := { s.det with nthreads := p.value.asInt } }
  else if p.name = "detector.decimate" then
    { s with det := { s.det with quad_decimate := p.value.asRat } }
  else if p.name = "detector.blur" then
    { s with det := { s.det with quad_sigma := p.value.asRat } }
  else if p.name = "detector.refine" then
    { s with det := { s.det with refine_edges := p.value.asBool } }
  else if p.name = "detector.sharpening" then
    { s with det := { s.det with decode_sharpening := p.value.asRat } }
  else if p.name = "detector.debug" then
    { s with det := { s.det with debug := p.value.asBool } }
  else if p.name = "max_hamming" then { s with max_hamming := p.value.asInt }
  else if p.name = "profile" then { s with profile := p.value.asBool }
  else if p.name = "z_up" then { s with z_up := p.value.asBool }
  else if p.name = "enabled" then { s with enabled := p.value.asBool }
  else s

/-- Shallow embedding of `AprilTagNode::onParameter` (AprilTagNode.cpp,
lines 279-307): the updates are applied in list order and the result is
always `successful = true`. -/
def onParameter (s : NodeState) (ps : List Param) : NodeState × Bool :=
  (ps.foldl applyParam s, true)

/-- The ten parameter names recognized by the callback, in source order. -/
def recognizedNames : List String :=
  ["detector.threads", "detector.decimate", "detector.blur", "detector.refine",
   "detector.sharpening", "detector.debug", "max_hamming", "profile", "z_up",
   "enabled"]

/-- The ten runtime-updatable fields, used to observe the node state
field by field. -/
inductive FieldKey where
  | threads : FieldKey
  | decimate : FieldKey
  | blur : FieldKey
  | refine : FieldKey
  | sharpening : FieldKey
  | debug : FieldKey
  | maxHamming : FieldKey
  | profile : FieldKey
  | zUp : FieldKey
  | enabled : FieldKey
deriving DecidableEq

/-- A field value, at whichever of the three types the field has. -/
inductive FVal where
  | ofInt : Int → FVal
  | ofRat : ℚ → FVal
  | ofBool : Bool → FVal
deriving DecidableEq

/-- The parameter name that assigns a given field. -/
def fieldName : FieldKey → String
  | FieldKey.threads => "detector.threads"
  | FieldKey.decimate => "detector.decimate"
  | FieldKey.blur => "detector.blur"
  | FieldKey.refine => "detector.refine"
  | FieldKey.sharpening => "detector.sharpening"
  | FieldKey.debug => "detector.debug"
  | FieldKey.maxHamming => "max_hamming"
  | FieldKey.profile => "profile"
  | FieldKey.zUp => "z_up"
  | FieldKey.enabled => "enabled"

/-- Read one runtime-updatable field of the node state. -/
def readField (s : NodeState) : FieldKey → FVal
  | FieldKey.threads => FVal.ofInt s.det.nthreads
  | FieldKey.decimate => FVal.ofRat s.det.quad_decimate
  | FieldKey.blur => FVal.ofRat s.det.quad_sigma
  | FieldKey.refine => FVal.ofBool s.det.refine_edges
  | FieldKey.sharpening => FVal.ofRat s.det.decode_sharpening
  | FieldKey.debug => FVal.ofBool s.det.debug
  | FieldKey.maxHamming => FVal.ofInt s.max_hamming
  | FieldKey.profile => FVal.ofBool s.profile
  | FieldKey.zUp => FVal.ofBool s.z_up
  | FieldKey.enabled => FVal.ofBool s.enabled

/-- The field value that assigning parameter value `v` to field `k`
writes (the callback reads the value at the field's own type). -/
def writeVal (k : FieldKey) (v : PVal) : FVal :=
  match k with
  | FieldKey.threads => FVal.ofInt v.asInt
  | FieldKey.decimate => FVal.ofRat v.asRat
  | FieldKey.blur => FVal.ofRat v.asRat
  | FieldKey.refine => FVal.ofBool v.asBool
  | FieldKey.sharpening => FVal.ofRat v.asRat
  | FieldKey.debug => FVal.ofBool v.asBool
  | FieldKey.maxHamming => FVal.ofInt v.asInt
  | FieldKey.profile => FVal.ofBool v.asBool
  | FieldKey.zUp => FVal.ofBool v.asBool
  | FieldKey.enabled => FVal.ofBool v.asBool

/-- The last update in a batch addressing field `k`, if any. -/
def lastWrite (ps : List Param) (k : FieldKey) : Option Param :=
  ps.reverse.find? (fun p => p.name == fieldName k)


/-! ### Behaviour of one `IF`-chain step, per recognized key -/

lemma applyParam_eq_threads (s : NodeState) (p : Param) (h : p.name = "detector.threads") :
    applyParam s p = { s with det := { s.det with nthreads := p.value.asInt } } := by
  unfold applyParam
  rw [if_pos h]

lemma applyParam_eq_decimate (s : NodeState) (p : Param) (h : p.name = "detector.decimate") :
    applyParam s p = { s with det := { s.det with quad_decimate := p.value.asRat } } := by
  unfold applyParam
  rw [if_neg (by rw [h]; decide)]
  rw [if_pos h]

lemma applyParam_eq_blur (s : NodeState) (p : Param) (h : p.name = "detector.blur") :
    applyParam s p = { s with det := { s.det with quad_sigma := p.value.asRat } } := by
  unfold applyParam
  rw [if_neg (by rw [h]; decide)]
  rw [if_neg (by rw [h]; decide)]
  rw [if_pos h]

lemma applyParam_eq_refine (s : NodeState) (p : Param) (h : p.name = "detector.refine") :
    applyParam s p = { s with det := { s.det with refine_edges := p.value.asBool } } := by
  unfold applyParam
  rw [if_neg (by rw [h]; decide)]
  rw [if_neg (by rw [h]; decide)]
  rw [if_neg (by rw [h]; decide)]
  rw [if_pos h]

lemma applyParam_eq_sharpening (s : NodeState) (p : Param) (h : p.name = "detector.sharpening") :
    applyParam s p = { s with det := { s.det with decode_sharpening := p.value.asRat } } := by
  unfold applyParam
  rw [if_neg (by rw [h]; decide)]
  rw [if_neg (by rw [h]; decide)]
  rw [if_neg (by rw [h]; decide)]
  rw [if_neg (by rw [h]; decide)]
  rw [if_pos h]

lemma applyParam_eq_debug (s : NodeState) (p : Param) (h : p.name = "detector.debug") :
    applyParam s p = { s with det := { s.det with debug := p.value.asBool } } := by
  unfold applyParam
  rw [if_neg (by rw [h]; decide)]
  rw [if_neg (by rw [h]; decide)]
  rw [if_neg (by rw [h]; decide)]
  rw [if_neg (by rw [h]; decide)]
  rw [if_neg (by rw [h]; decide)]
  rw [if_pos h]

lemma applyParam_eq_maxHamming (s : NodeState) (p : Param) (h : p.name = "max_hamming") :
    applyParam s p = { s with max_hamming := p.value.asInt } := by
  unfold applyParam
  rw [if_neg (by rw [h]; decide)]
  rw [if_neg (by rw [h]; decide)]
  rw [if_neg (by rw [h]; decide)]
  rw [if_neg (by rw [h]; decide)]
  rw [if_neg (by rw [h]; decide)]
  rw [if_neg (by rw [h]; decide)]
  rw [if_pos h]

lemma applyParam_eq_profile (s : NodeState) (p : Param) (h : p.name = "profile") :
    applyParam s p = { s with profile := p.value.asBool } := by
  unfold applyParam
  rw [if_neg (by rw [h]; decide)]
  rw [if_neg (by rw [h]; decide)]
  rw [if_neg (by rw [h]; decide)]
  rw [if_neg (by rw [h]; decide)]
  rw [if_neg (by rw [h]; decide)]
  rw [if_neg (by rw [h]; decide)]
  rw [if_neg (by rw [h]; decide)]
  rw [if_pos h]

lemma applyParam_eq_zUp (s : NodeState) (p : Param) (h : p.name = "z_up") :
    applyParam s p = { s with z_up := p.value.asBool } := by
  unfold applyParam
  rw [if_neg (by rw [h]; decide)]
  rw [if_neg (by rw [h]; decide)]
  rw [if_neg (by rw [h]; decide)]
  rw [if_neg (by rw [h]; decide)]
  rw [if_neg (by rw [h]; decide)]
  rw [if_neg (by rw [h]; decide)]
  rw [if_neg (by rw [h]; decide)]
  rw [if_neg (by rw [h]; decide)]
  rw [if_pos h]

lemma applyParam_eq_enabled (s : NodeState) (p : Param) (h : p.name = "enabled") :
    applyParam s p = { s with enabled := p.value.asBool } := by
  unfold applyParam
  rw [if_neg (by rw [h]; decide)]
  rw [if_neg (by rw [h]; decide)]
  rw [if_neg (by rw [h]; decide)]
  rw [if_neg (by rw [h]; decide)]
  rw [if_neg (by rw [h]; decide)]
  rw [if_neg (by rw [h]; decide)]
  rw [if_neg (by rw [h]; decide)]
  rw [if_neg (by rw [h]; decide)]
  rw [if_neg (by rw [h]; decide)]
  rw [if_pos h]

lemma applyParam_eq_none (s : NodeState) (p : Param)
    (h1 : p.name ≠ "detector.threads") (h2 : p.name ≠ "detector.decimate") (h3 : p.name ≠ "detector.blur") (h4 : p.name ≠ "detector.refine") (h5 : p.name ≠ "detector.sharpening") (h6 : p.name ≠ "detector.debug") (h7 : p.name ≠ "max_hamming") (h8 : p.name ≠ "profile") (h9 : p.name ≠ "z_up") (h10 : p.name ≠ "enabled") :
    applyParam s p = s := by
  unfold applyParam
  rw [if_neg h1]
  rw [if_neg h2]
  rw [if_neg h3]
  rw [if_neg h4]
  rw [if_neg h5]
  rw [if_neg h6]
  rw [if_neg h7]
  rw [if_neg h8]
  rw [if_neg h9]
  rw [if_neg h10]

lemma readField_applyParam (s : NodeState) (p : Param) (k : FieldKey) :
    readField (applyParam s p) k =
      if p.name = fieldName k then writeVal k p.value else readField s k := by
  by_cases h1 : p.name = "detector.threads"
  · rw [applyParam_eq_threads s p h1]
    cases k <;> simp [readField, fieldName, writeVal, h1]
  by_cases h2 : p.name = "detector.decimate"
  · rw [applyParam_eq_decimate s p h2]
    cases k <;> simp [readField, fieldName, writeVal, h2]
  by_cases h3 : p.name = "detector.blur"
  · rw [applyParam_eq_blur s p h3]
    cases k <;> simp [readField, fieldName, writeVal, h3]
  by_cases h4 : p.name = "detector.refine"
  · rw [applyParam_eq_refine s p h4]
    cases k <;> simp [readField, fieldName, writeVal, h4]
  by_cases h5 : p.name = "detector.sharpening"
  · rw [applyParam_eq_sharpening s p h5]
    cases k <;> simp [readField, fieldName, writeVal, h5]
  by_cases h6 : p.name = "detector.debug"
  · rw [applyParam_eq_debug s p h6]
    cases k <;> simp [readField, fieldName, writeVal, h6]
  by_cases h7 : p.name = "max_hamming"
  · rw [applyParam_eq_maxHamming s p h7]
    cases k <;> simp [readField, fieldName, writeVal, h7]
  by_cases h8 : p.name = "profile"
  · rw [applyParam_eq_profile s p h8]
    cases k <;> simp [readField, fieldName, writeVal, h8]
  by_cases h9 : p.name = "z_up"
  · rw [applyParam_eq_zUp s p h9]
    cases k <;> simp [readField, fieldName, writeVal, h9]
  by_cases h10 : p.name = "enabled"
  · rw [applyParam_eq_enabled s p h10]
    cases k <;> simp [readField, fieldName, writeVal, h10]
  rw [applyParam_eq_none s p h1 h2 h3 h4 h5 h6 h7 h8 h9 h10]
  cases k <;> simp [fieldName, h1, h2, h3, h4, h5, h6, h7, h8, h9, h10]

lemma find?_singleton {α : Type} (a : α) (f : α → Bool) :
    [a].find? f = if f a then some a else none := by
  cases h : f a <;> simp [List.find?, h]

lemma find?_append {α : Type} (l1 l2 : List α) (f : α → Bool) :
    (l1 ++ l2).find? f =
      match l1.find? f with
      | some a => some a
      | none => l2.find? f := by
  induction l1 with
  | nil => simp
  | cons a l ih =>
    by_cases h : f a
    · rw [List.cons_append, List.find?_cons_of_pos _ h, List.find?_cons_of_pos _ h]
    · rw [List.cons_append, List.find?_cons_of_neg _ h, List.find?_cons_of_neg _ h, ih]

lemma lastWrite_cons_of_some (p q : Param) (ps : List Param) (k : FieldKey)
    (hlw : lastWrite ps k = some q) : lastWrite (p :: ps) k = some q := by
  unfold lastWrite at hlw ⊢
  rw [List.reverse_cons, find?_append, hlw]

lemma lastWrite_cons_of_none (p : Param) (ps : List Param) (k : FieldKey)
    (hlw : lastWrite ps k = none) :
    lastWrite (p :: ps) k = if p.name == fieldName k then some p else none := by
  unfold lastWrite at hlw ⊢
  rw [List.reverse_cons, find?_append, hlw]
  exact find?_singleton p (fun q => q.name == fieldName k)

lemma foldl_applyParam_readField (ps : List Param) (s : NodeState) (k : FieldKey) :
    readField (ps.foldl applyParam s) k =
      match lastWrite ps k with
      | some p => writeVal k p.value
      | none => readField s k := by
  induction ps generalizing s with
  | nil => rfl
  | cons p ps ih =>
    show readField (ps.foldl applyParam (applyParam s p)) k = _
    rw [ih (applyParam s p)]
    cases hlw : lastWrite ps k with
    | some q =>
      rw [lastWrite_cons_of_some p q ps k hlw]
    | none =>
      rw [lastWrite_cons_of_none p ps k hlw]
      show readField (applyParam s p) k = _
      rw [readField_applyParam]
      by_cases hb : p.name = fieldName k
      · simp [hb]
      · simp [hb]

lemma applyParam_fixed (s : NodeState) (p : Param) :
    (applyParam s p).tag_edge_size = s.tag_edge_size ∧
    (applyParam s p).tag_frames = s.tag_frames ∧
    (applyParam s p).tag_sizes = s.tag_sizes := by
  by_cases h1 : p.name = "detector.threads"
  · rw [applyParam_eq_threads s p h1]
    exact ⟨rfl, rfl, rfl⟩
  by_cases h2 : p.name = "detector.decimate"
  · rw [applyParam_eq_decimate s p h2]
    exact ⟨rfl, rfl, rfl⟩
  by_cases h3 : p.name = "detector.blur"
  · rw [applyParam_eq_blur s p h3]
    exact ⟨rfl, rfl, rfl⟩
  by_cases h4 : p.name = "detector.refine"
  · rw [applyParam_eq_refine s p h4]
    exact ⟨rfl, rfl, rfl⟩
  by_cases h5 : p.name = "detector.sharpening"
  · rw [applyParam_eq_sharpening s p h5]
    exact ⟨rfl, rfl, rfl⟩
  by_cases h6 : p.name = "detector.debug"
  · rw [applyParam_eq_debug s p h6]
    exact ⟨rfl, rfl, rfl⟩
  by_cases h7 : p.name = "max_hamming"
  · rw [applyParam_eq_maxHamming s p h7]
    exact ⟨rfl, rfl, rfl⟩
  by_cases h8 : p.name = "profile"
  · rw [applyParam_eq_profile s p h8]
    exact ⟨rfl, rfl, rfl⟩
  by_cases h9 : p.name = "z_up"
  · rw [applyParam_eq_zUp s p h9]
    exact ⟨rfl, rfl, rfl⟩
  by_cases h10 : p.name = "enabled"
  · rw [applyParam_eq_enabled s p h10]
    exact ⟨rfl, rfl, rfl⟩
  rw [applyParam_eq_none s p h1 h2 h3 h4 h5 h6 h7 h8 h9 h10]
  exact ⟨rfl, rfl, rfl⟩

lemma foldl_applyParam_fixed (ps : List Param) (s : NodeState) :
    (ps.foldl applyParam s).tag_edge_size = s.tag_edge_size ∧
    (ps.foldl applyParam s).tag_frames = s.tag_frames ∧
    (ps.foldl applyParam s).tag_sizes = s.tag_sizes := by
  induction ps generalizing s with
  | nil => exact ⟨rfl, rfl, rfl⟩
  | cons p ps ih =>
    obtain ⟨h1, h2, h3⟩ := applyParam_fixed s p
    obtain ⟨g1, g2, g3⟩ := ih (applyParam s p)
    exact ⟨g1.trans h1, g2.trans h2, g3.trans h3⟩

lemma nodeState_ext (s t : NodeState)
    (hf : ∀ k, readField s k = readField t k)
    (h1 : s.tag_edge_size = t.tag_edge_size)
    (h2 : s.tag_frames = t.tag_frames)
    (h3 : s.tag_sizes = t.tag_sizes) : s = t := by
  rcases s with ⟨⟨a1, a2, a3, a4, a5, a6⟩, b1, b2, b3, b4, b5, b6, b7⟩
  rcases t with ⟨⟨c1, c2, c3, c4, c5, c6⟩, d1, d2, d3, d4, d5, d6, d7⟩
  have e1 := hf FieldKey.threads
  have e2 := hf FieldKey.decimate
  have e3 := hf FieldKey.blur
  have e4 := hf FieldKey.refine
  have e5 := hf FieldKey.sharpening
  have e6 := hf FieldKey.debug
  have e7 := hf FieldKey.maxHamming
  have e8 := hf FieldKey.profile
  have e9 := hf FieldKey.zUp
  have e10 := hf FieldKey.enabled
  simp only [readField, FVal.ofInt.injEq, FVal.ofRat.injEq,
    FVal.ofBool.injEq] at e1 e2 e3 e4 e5 e6 e7 e8 e9 e10
  simp only [NodeState.mk.injEq, DetCfg.mk.injEq]
  exact ⟨⟨e1, e2, e3, e4, e5, e6⟩, h1, e7, e8, h2, h3, e9, e10⟩

/-- C9: the parameter callback always reports success, and an update whose
name matches none of the ten recognized keys leaves the entire node state
— detector tuning, runtime flags and the startup-fixed fields — unchanged. -/
theorem onParameter_success_unrecognized_noop (s : NodeState) (ps : List Param)
    (p : Param) (hp : p.name ∉ recognizedNames) :
    (onParameter s ps).2 = true ∧ applyParam s p = s := by
  refine ⟨rfl, ?_⟩
  simp only [recognizedNames, List.mem_cons, List.not_mem_nil, or_false,
    not_or] at hp
  obtain ⟨n1, n2, n3, n4, n5, n6, n7, n8, n9, n10⟩ := hp
  exact applyParam_eq_none s p n1 n2 n3 n4 n5 n6 n7 n8 n9 n10

/-- Witness for C9: the name `"tag.ids"` (the ID list, fixed at startup)
is not a recognized key and its update is a no-op, while the callback
still reports success. -/
theorem onParameter_success_unrecognized_noop_witness :
    ("tag.ids" ∉ recognizedNames) ∧
    ((onParameter nodeDisabled []).2 = true ∧
      applyParam nodeDisabled ⟨"tag.ids", ⟨0, 0, false⟩⟩ = nodeDisabled) :=
  ⟨by decide, onParameter_success_unrecognized_noop nodeDisabled []
    ⟨"tag.ids", ⟨0, 0, false⟩⟩ (by decide)⟩

/-- C10: updates are applied in list order by a fold of overwriting
assignments, so the final value of every recognized field equals the value
carried by the LAST update in the batch naming it, and applying the same
batch twice leaves the same state as applying it once. -/
theorem onParameter_last_writer_wins_idempotent (s : NodeState) (ps : List Param) :
    (∀ k p, lastWrite ps k = some p →
      readField ((onParameter s ps).1) k = writeVal k p.value) ∧
    (onParameter ((onParameter s ps).1) ps).1 = (onParameter s ps).1 := by
  constructor
  · intro k p hlast
    have h := foldl_applyParam_readField ps s k
    rw [hlast] at h
    exact h
  · apply nodeState_ext
    · intro k
      have hA := foldl_applyParam_readField ps (ps.foldl applyParam s) k
      have hB := foldl_applyParam_readField ps s k
      cases hlw : lastWrite ps k with
      | some q =>
        rw [hlw] at hA hB
        exact hA.trans hB.symm
      | none =>
        rw [hlw] at hA
        exact hA
    · exact (foldl_applyParam_fixed ps ((onParameter s ps).1)).1
    · exact (foldl_applyParam_fixed ps ((onParameter s ps).1)).2.1
    · exact (foldl_applyParam_fixed ps ((onParameter s ps).1)).2.2

/-- A batch setting `enabled` twice, used as the C10 witness input. -/
def psTwice : List Param := [⟨"enabled", ⟨0, 0, true⟩⟩, ⟨"enabled", ⟨0, 0, false⟩⟩]

/-- Witness for C10 on a concrete batch that sets `enabled` twice: the
value read back is the one carried by the last update. -/
theorem onParameter_last_writer_wins_idempotent_witness :
    lastWrite psTwice FieldKey.enabled = some ⟨"enabled", ⟨0, 0, false⟩⟩ ∧
    readField ((onParameter nodeDisabled psTwice).1) FieldKey.enabled =
      writeVal FieldKey.enabled ⟨0, 0, false⟩ :=
  ⟨by decide, (onParameter_last_writer_wins_idempotent nodeDisabled psTwice).1
    FieldKey.enabled ⟨"enabled", ⟨0, 0, false⟩⟩ (by decide)⟩
